import Mathlib

/-!
Verification of the agent-safe repository's vault transaction orchestration
engine against its specification.

The TypeScript sources are shallowly embedded: each stateful class method
becomes a pure Lean function on an explicit state value, machine integers
become `Nat`, addresses / hashes / hex payloads become `String`, fallible
methods return `Except`, and results coming back from external
collaborators (the Safe transaction service, the RPC node, the vault SDK)
become explicit function arguments.
-/

namespace AgentSafe

/-! ### String helpers

The sources compare identifiers with JavaScript's `toLowerCase`,
`toUpperCase` and `startsWith('0x')` on ASCII strings (hex addresses and
token symbols). These are modelled structurally over the string's
character list so that proofs can evaluate them. -/

/-- ASCII lower-casing of one character (JS `toLowerCase` restricted to
the ASCII identifiers this system handles). -/
def lowerChar (c : Char) : Char :=
  if 'A' ≤ c && c ≤ 'Z' then Char.ofNat (c.toNat + 32) else c

/-- ASCII `toLowerCase`. -/
def strLower (s : String) : String := ⟨s.data.map lowerChar⟩

/-- ASCII upper-casing of one character. -/
def upperChar (c : Char) : Char :=
  if 'a' ≤ c && c ≤ 'z' then Char.ofNat (c.toNat - 32) else c

/-- ASCII `toUpperCase`. -/
def strUpper (s : String) : String := ⟨s.data.map upperChar⟩

/-- JS `startsWith('0x')`. -/
def strStartsWith0x (s : String) : Bool :=
  match s.data with
  | '0' :: 'x' :: _ => true
  | _ => false

instance (ε α : Type) [DecidableEq ε] [DecidableEq α] : DecidableEq (Except ε α) :=
  fun a b =>
    match a, b with
    | Except.error e, Except.error f => decidable_of_iff (e = f) (by simp)
    | Except.error _, Except.ok _ => Decidable.isFalse (by simp)
    | Except.ok _, Except.error _ => Decidable.isFalse (by simp)
    | Except.ok x, Except.ok y => decidable_of_iff (x = y) (by simp)

/-- The `ProposalStatus` from src/state/types.ts. -/
inductive ProposalStatus where
  | draft
  | proposed
  | ownerConfirmed
  | executed
  | failed
  deriving DecidableEq, Repr, Fintype

/-- The `WizardState` from src/state/types.ts. -/
inductive WizardState where
  | INIT
  | AGENT_WALLET_CREATED
  | AWAIT_USER_FUNDS_CONFIRMATION
  | AWAIT_OWNER_ADDRESS
  | READY_TO_DEPLOY_SAFE
  | SAFE_DEPLOYED
  | READY
  deriving DecidableEq, Repr, Fintype

/-- Symbolic model of the hex calldata payloads built by the integration
services (UniswapService / AaveService / SafeService). The sources produce
hex strings through viem's `encodeFunctionData`, which is injective per
ABI entry, so each builder is modelled by a distinct constructor carrying
its arguments; `empty` is the literal `0x` payload. -/
inductive Calldata where
  | empty
  | approve (spender : String) (amount : Nat)
  | exactInputSingle (tokenIn tokenOut : String) (fee : Nat) (recipient : String)
      (amountIn amountOutMinimum : Nat)
  | erc20Transfer (recipient : String) (amount : Nat)
  | wethDeposit
  | wethWithdraw (amount : Nat)
  | supply (asset : String) (amount : Nat) (onBehalfOf : String)
  | aaveWithdraw (asset : String) (amount : Nat) (recipient : String)
  deriving DecidableEq, Repr

/-- The `MetaTransactionData` (one `(to, value, data)` call of a Safe
transaction); the source field `to` is named `toAddress` here. -/
structure MetaTransactionData where
  toAddress : String
  value : Nat
  data : Calldata
  deriving DecidableEq, Repr

/-- Swap metadata carried on a `Proposal` (src/state/types.ts). -/
structure SwapDetails where
  fromToken : String
  toToken : String
  fromAmount : String
  expectedToAmount : String
  minToAmount : String
  deriving DecidableEq, Repr

/-- The `Proposal` from src/state/types.ts. Addresses, hashes and hex payloads
are strings; `value` keeps the source's decimal-string representation.
The source field `to` is named `toAddress` here (`to` is reserved in
Lean). -/
structure Proposal where
  safeTxHash : String
  status : ProposalStatus
  description : String
  toAddress : String
  value : String
  data : Calldata
  createdAt : String
  executedTxHash : Option String := none
  swapDetails : Option SwapDetails := none
  deriving DecidableEq, Repr

/-- The `SkillState` from src/state/types.ts; `proposals` models the
`Record<Hex, Proposal>` map as a function from hash to optional proposal. -/
structure SkillState where
  wizardState : WizardState
  agentAddress : Option String := none
  ownerAddresses : List String := []
  safeAddress : Option String := none
  deployTxHash : Option String := none
  proposals : String → Option Proposal

/-- The `createInitialState` from src/state/types.ts. -/
def createInitialState : SkillState :=
  { wizardState := WizardState.INIT
    ownerAddresses := []
    proposals := fun _ => none }

/-! ### StateManager (src/state/StateManager.ts)

Each mutating method becomes a function `SkillState → ... → SkillState`;
`saveState` is the identity on the in-memory state and is elided. -/

/-- The `StateManager.setWizardState`. -/
def setWizardState (s : SkillState) (w : WizardState) : SkillState :=
  { s with wizardState := w }

/-- The `StateManager.setAgentAddress`. -/
def setAgentAddress (s : SkillState) (a : String) : SkillState :=
  { s with agentAddress := some a }

/-- The `StateManager.addOwnerAddress`: appends the address unless it is
already present (exact string comparison, as in the source). -/
def stateAddOwnerAddress (s : SkillState) (a : String) : SkillState :=
  if a ∈ s.ownerAddresses then s
  else { s with ownerAddresses := s.ownerAddresses ++ [a] }

/-- The `StateManager.setSafeDeployed`. -/
def setSafeDeployed (s : SkillState) (safeAddr deployTx : String) : SkillState :=
  { s with safeAddress := some safeAddr
           deployTxHash := some deployTx
           wizardState := WizardState.SAFE_DEPLOYED }

/-- The `StateManager.setReady`. -/
def setReady (s : SkillState) : SkillState :=
  { s with wizardState := WizardState.READY }

/-- The `StateManager.addProposal`: stores the proposal under its hash. -/
def addProposal (s : SkillState) (p : Proposal) : SkillState :=
  { s with proposals := fun h => if h = p.safeTxHash then some p else s.proposals h }

/-- The `StateManager.updateProposalStatus`: a no-op when the hash is unknown;
otherwise overwrites `status` and, when a truthy (non-empty) execution hash
is given, `executedTxHash`. The `if (executedTxHash)` in the source is a JS
truthiness test, so an empty string does not overwrite. -/
def updateProposalStatus (s : SkillState) (h : String) (st : ProposalStatus)
    (executedTxHash : Option String) : SkillState :=
  match s.proposals h with
  | none => s
  | some p =>
      { s with proposals := fun h' =>
          if h' = h then
            some { p with status := st
                          executedTxHash :=
                            match executedTxHash with
                            | some t => if t = "" then p.executedTxHash else some t
                            | none => p.executedTxHash }
          else s.proposals h' }

/-- The `StateManager.getProposal`. -/
def getProposal (s : SkillState) (h : String) : Option Proposal :=
  s.proposals h

/-- Status of the proposal stored under `h`, if any. -/
def statusOf (s : SkillState) (h : String) : Option ProposalStatus :=
  (s.proposals h).map Proposal.status

/-! ### Safe transaction service responses (SafeTxServiceClient) -/

/-- One confirmation record as returned by
`SafeTxServiceClient.getTransactionDetails`. -/
structure Confirmation where
  owner : String
  submissionDate : String
  signature : String
  deriving DecidableEq, Repr

/-- The slice of the transaction-service response that
`SafeOperations.checkProposalStatus` consumes. -/
structure TransactionDetails where
  confirmations : List Confirmation
  confirmationsRequired : Nat
  isExecuted : Bool
  transactionHash : Option String := none
  deriving DecidableEq, Repr

/-- The `ProposalStatusResult` from src/operations/SafeOperations.ts. -/
structure ProposalStatusResult where
  safeTxHash : String
  confirmations : List Confirmation
  confirmationsRequired : Nat
  confirmedByOwner : Bool
  readyToExecute : Bool
  isExecuted : Bool
  deriving DecidableEq, Repr

/-- The `ExecuteResult` from src/operations/SafeOperations.ts. -/
structure ExecuteResult where
  executed : Bool
  execTxHash : Option String := none
  deriving DecidableEq, Repr

/-! ### SafeOperations (src/operations/SafeOperations.ts)

The remote service's answer is passed in as a `TransactionDetails`
argument; each operation returns its result together with the new local
state (and, for `executeIfReady`, whether an execution was submitted to
the chain). -/

/-- The `SafeOperations.checkProposalStatus`: derives readiness from the remote
details and synchronizes the local ledger (OWNER_CONFIRMED when the
threshold is met, EXECUTED when the service reports execution). -/
def checkProposalStatus (s : SkillState) (safeTxHash : String)
    (d : TransactionDetails) : ProposalStatusResult × SkillState :=
  let confirmationsCount := d.confirmations.length
  let readyToExecute :=
    decide (confirmationsCount ≥ d.confirmationsRequired) && !d.isExecuted
  let s1 :=
    if confirmationsCount ≥ d.confirmationsRequired then
      updateProposalStatus s safeTxHash ProposalStatus.ownerConfirmed none
    else s
  let s2 :=
    if d.isExecuted then
      updateProposalStatus s1 safeTxHash ProposalStatus.executed d.transactionHash
    else s1
  (⟨safeTxHash, d.confirmations, d.confirmationsRequired,
    decide (confirmationsCount ≥ 2), readyToExecute, d.isExecuted⟩, s2)

/-- The `SafeOperations.executeIfReady`: re-checks status, returns a
non-throwing result when the proposal is already executed or short of
confirmations; otherwise submits execution (`submitted = true`, with chain
hash `execHash` supplied by the vault SDK) and marks the proposal
EXECUTED. -/
def executeIfReady (s : SkillState) (safeTxHash : String)
    (d : TransactionDetails) (execHash : String) :
    ExecuteResult × SkillState × Bool :=
  let checked := checkProposalStatus s safeTxHash d
  let status := checked.1
  let s1 := checked.2
  if status.isExecuted then
    (⟨false, none⟩, s1, false)
  else if !status.readyToExecute then
    (⟨false, none⟩, s1, false)
  else
    (⟨true, some execHash⟩,
     updateProposalStatus s1 safeTxHash ProposalStatus.executed (some execHash),
     true)

/-- The `SafeOperations.agentSignTransaction`: checks status, refuses when
already executed or when the agent already confirmed, otherwise submits a
confirmation and re-checks (`d2` is the service's answer to that second
check). -/
def agentSignTransaction (s : SkillState) (safeTxHash : String)
    (agentAddress : String) (d1 d2 : TransactionDetails) :
    Bool × SkillState :=
  let checked := checkProposalStatus s safeTxHash d1
  let status := checked.1
  let s1 := checked.2
  if status.isExecuted then
    (false, s1)
  else if status.confirmations.any
      (fun c => strLower c.owner = strLower agentAddress) then
    (false, s1)
  else
    (true, (checkProposalStatus s1 safeTxHash d2).2)

/-! ### SafeService transaction building (src/services/SafeService.ts)

A `SafeTransaction` is modelled by its list of `(to, value, data)`
calls, as handed to the protocol kit's `createTransaction`. -/

/-- The `SafeService.buildETHTransferTx`. -/
def buildETHTransferTx (toA : String) (amountWei : Nat) : List MetaTransactionData :=
  [⟨toA, amountWei, Calldata.empty⟩]

/-- The `SafeService.buildERC20TransferTx`. -/
def buildERC20TransferTx (tokenAddress toA : String) (amount : Nat) :
    List MetaTransactionData :=
  [⟨tokenAddress, 0, Calldata.erc20Transfer toA amount⟩]

/-- The `SafeService.buildRawTx`. -/
def buildRawTx (toA : String) (value : Nat) (data : Calldata) :
    List MetaTransactionData :=
  [⟨toA, value, data⟩]

/-- The `SafeService.buildBatchTx`. -/
def buildBatchTx (transactions : List MetaTransactionData) :
    List MetaTransactionData :=
  transactions

/-- The comparison used by `SafeService.executeTransactionFromService` to
sort collected confirmations: ascending by lower-cased owner address. -/
def confLE (a b : Confirmation) : Prop :=
  (strLower a.owner).data ≤ (strLower b.owner).data

instance : DecidableRel confLE := fun a b =>
  inferInstanceAs (Decidable ((strLower a.owner).data ≤ (strLower b.owner).data))

instance : IsTotal Confirmation confLE :=
  ⟨fun a b => le_total (strLower a.owner).data (strLower b.owner).data⟩

instance : IsTrans Confirmation confLE :=
  ⟨fun _ _ _ hab hbc => le_trans hab hbc⟩

/-- The signature-ordering step of
`SafeService.executeTransactionFromService` (lines 272-285): the collected
confirmations are sorted ascending by lower-cased owner address before
being attached to the reconstructed transaction. The source uses the
JavaScript stable `Array.prototype.sort` with a `localeCompare` comparator
on lower-cased owners; any stable sort realizes the same contract, and
insertion sort is used here. -/
def sortConfirmations (confirmations : List Confirmation) : List Confirmation :=
  List.insertionSort confLE confirmations

/-! ### WizardOrchestrator (src/orchestrator/WizardOrchestrator.ts)

`walletExists` stands for `KeyManager.walletExists()`; the agent address
and external results (balances, deployed address, transaction hashes) are
arguments. Thrown errors become `Except.error` carrying the message, with
the state unchanged. -/

/-- The `WizardOrchestrator.start`: loads or creates the agent wallet, records
its address, and advances INIT to AGENT_WALLET_CREATED (an existing wallet
in a later state causes no state regression). -/
def wizardStart (s : SkillState) (walletExists : Bool) (agentAddress : String) :
    SkillState :=
  if walletExists then
    let s1 := setAgentAddress s agentAddress
    if s.wizardState = WizardState.INIT then
      setWizardState s1 WizardState.AGENT_WALLET_CREATED
    else s1
  else
    setWizardState (setAgentAddress s agentAddress)
      WizardState.AGENT_WALLET_CREATED

/-- The `WizardOrchestrator.checkAgentFunds`: compares the agent balance with
the minimum and routes to AWAIT_OWNER_ADDRESS or
AWAIT_USER_FUNDS_CONFIRMATION, from whatever the current state is. -/
def checkAgentFunds (s : SkillState) (walletExists : Bool)
    (balanceWei minWei : Nat) : Except String (Bool × SkillState) :=
  if !walletExists then
    Except.error "No wallet found. Run start() first."
  else
    let ok := decide (balanceWei ≥ minWei)
    Except.ok (ok,
      setWizardState s
        (if ok then WizardState.AWAIT_OWNER_ADDRESS
         else WizardState.AWAIT_USER_FUNDS_CONFIRMATION))

/-- viem's syntactic `isAddress` check: `0x` followed by 40 hex digits. -/
def isAddress (a : String) : Bool :=
  match a.data with
  | '0' :: 'x' :: rest =>
      rest.length == 40 &&
        rest.all fun c =>
          c.isDigit || ('a' ≤ c && c ≤ 'f') || ('A' ≤ c && c ≤ 'F')
  | _ => false

/-- The `WizardOrchestrator.addOwnerAddress`: validates the format, checksums
the address (`checksum` models viem's `getAddress`, which only changes
letter case), rejects the agent's own address, then appends the owner and
moves to READY_TO_DEPLOY_SAFE. Returns the checksummed address. -/
def addOwnerAddress (checksum : String → String) (s : SkillState)
    (walletExists : Bool) (agentAddress ownerAddress : String) :
    Except String (String × SkillState) :=
  if !walletExists then
    Except.error "No wallet found. Run start() first."
  else if !isAddress ownerAddress then
    Except.error ("Invalid address format: " ++ ownerAddress)
  else
    let checksummedAddress := checksum ownerAddress
    if strLower checksummedAddress = strLower agentAddress then
      Except.error "Owner address cannot be the same as the agent address."
    else
      Except.ok (checksummedAddress,
        setWizardState (stateAddOwnerAddress s checksummedAddress)
          WizardState.READY_TO_DEPLOY_SAFE)

/-- The `WizardOrchestrator.deploySafe`: only legal in READY_TO_DEPLOY_SAFE
with a non-empty owner list; on success records the deployment
(SAFE_DEPLOYED) and then marks the wizard READY. The vault-registry append
(`recordSafe`) lives in a separate document and is elided. -/
def deploySafe (s : SkillState) (walletExists : Bool)
    (safeAddress txHash : String) : Except String SkillState :=
  if !walletExists then
    Except.error "No wallet found. Run start() first."
  else if s.wizardState ≠ WizardState.READY_TO_DEPLOY_SAFE then
    Except.error "Cannot deploy Safe in current state"
  else if s.ownerAddresses = [] then
    Except.error "No owner addresses set."
  else
    Except.ok (setReady (setSafeDeployed s safeAddress txHash))

/-! ### Token resolution and quoting (UniswapService, AaveService) -/

/-- The `TokenConfig` from src/types.ts. -/
structure TokenConfig where
  symbol : String
  address : String
  decimals : Nat
  deriving DecidableEq, Repr

/-- The result shape of both services' `resolveToken`. -/
structure ResolvedToken where
  address : String
  decimals : Nat
  symbol : String
  deriving DecidableEq, Repr

/-- The allowlist lookup shared by both `resolveToken` implementations:
case-insensitive match on symbol or address. -/
def findToken (tokens : List TokenConfig) (input : String) : Option TokenConfig :=
  tokens.find? fun t =>
    strLower t.symbol = strLower input || strLower t.address = strLower input

/-- The `UniswapService.resolveToken`: ETH maps to the configured WETH
address; otherwise the allowlist is consulted; any other input is assumed
to be an address with 18 decimals, labelled TOKEN. It is total — it never
fails and performs no on-chain read. -/
def uniswapResolveToken (weth : String) (tokens : List TokenConfig)
    (input : String) : ResolvedToken :=
  if strUpper input = "ETH" then ⟨weth, 18, "ETH"⟩
  else
    match findToken tokens input with
    | some t => ⟨t.address, t.decimals, t.symbol⟩
    | none => ⟨input, 18, "TOKEN"⟩

/-- The `UniswapService.isNativeETH`. -/
def isNativeETH (input : String) : Bool :=
  strUpper input = "ETH"

/-- The `AaveService.resolveToken`: allowlist first; otherwise the input must
start with `0x`, and its decimals are read on-chain (`chainDecimals` is
that contract call's result, `none` when the read fails). -/
def aaveResolveToken (tokens : List TokenConfig) (input : String)
    (chainDecimals : Option Nat) : Except String ResolvedToken :=
  match findToken tokens input with
  | some t => Except.ok ⟨t.address, t.decimals, t.symbol⟩
  | none =>
      if !strStartsWith0x input then
        Except.error
          ("Token " ++ input ++ " not found in allowlist and is not a valid address.")
      else
        match chainDecimals with
        | some d => Except.ok ⟨input, d, "TOKEN"⟩
        | none =>
            Except.error
              ("Could not resolve decimals for token at " ++ input ++
               ". Please ensure it is a valid ERC20 token.")

/-- The `UniswapService.defaultSlippagePercent = 0.5`, as the numerator of the
basis-point multiplier `BigInt(Math.floor((100 - 0.5) * 100))`; the
floating-point computation is exact and yields 9950. -/
def slippageMultiplier : Nat := 9950

/-- The minimum-output computation of `UniswapService.getQuote`:
`amountOut * slippageMultiplier / 10000n` with BigInt (floor) division. -/
def amountOutMinOf (amountOut : Nat) : Nat :=
  amountOut * slippageMultiplier / 10000

/-- The raw-unit content of a `SwapQuoteResult`. -/
structure SwapQuoteRaw where
  fromTokenR : ResolvedToken
  toTokenR : ResolvedToken
  amountInRaw : Nat
  amountOutRaw : Nat
  amountOutMinRaw : Nat
  poolFee : Nat
  gasEstimate : Nat
  deriving DecidableEq, Repr

/-- The `UniswapService.getQuote`: resolves both tokens, fails when the pool
lookup returned no pool (factory answered the zero address), otherwise
derives the minimum acceptable output from the quoter's `amountOut`. The
on-chain reads are the `pool` and `quoterAmountOut`/`quoterGas`
arguments. -/
def getQuote (weth : String) (tokens : List TokenConfig)
    (fromToken toToken : String) (amountInRaw fee : Nat)
    (pool : Option String) (quoterAmountOut quoterGas : Nat) :
    Except String SwapQuoteRaw :=
  let tokenIn := uniswapResolveToken weth tokens fromToken
  let tokenOut := uniswapResolveToken weth tokens toToken
  match pool with
  | none =>
      Except.error
        ("No Uniswap pool exists for " ++ tokenIn.symbol ++ "/" ++
         tokenOut.symbol)
  | some _ =>
      Except.ok
        ⟨tokenIn, tokenOut, amountInRaw, quoterAmountOut,
         amountOutMinOf quoterAmountOut, fee, quoterGas⟩

/-- The `UniswapService.buildApproveCalldata` (AaveService defines the byte-
identical encoder). -/
def buildApproveCalldata (spender : String) (amount : Nat) : Calldata :=
  Calldata.approve spender amount

/-- The `UniswapService.buildSwapCalldata`. -/
def buildSwapCalldata (tokenIn tokenOut : String) (fee : Nat)
    (recipient : String) (amountIn amountOutMinimum : Nat) : Calldata :=
  Calldata.exactInputSingle tokenIn tokenOut fee recipient amountIn amountOutMinimum

/-- The `AaveService.buildSupplyCalldata`. -/
def buildSupplyCalldata (asset : String) (amount : Nat) (onBehalfOf : String) :
    Calldata :=
  Calldata.supply asset amount onBehalfOf

/-! ### The propose-family call assembly (SafeOperations) -/

/-- The Safe transaction assembled by `SafeOperations.proposeSwap` (lines
436-480): a native-ETH input yields a single raw call carrying the input
amount as value; an ERC20 input yields the two-call batch approve-then-
swap, both directed at the swap router as spender. -/
def proposeSwapTx (swapRouter safeAddress fromToken : String)
    (q : SwapQuoteRaw) (fee : Nat) : List MetaTransactionData :=
  let swapCalldata :=
    buildSwapCalldata q.fromTokenR.address q.toTokenR.address fee safeAddress
      q.amountInRaw q.amountOutMinRaw
  if isNativeETH fromToken then
    buildRawTx swapRouter q.amountInRaw swapCalldata
  else
    buildBatchTx
      [⟨q.fromTokenR.address, 0, buildApproveCalldata swapRouter q.amountInRaw⟩,
       ⟨swapRouter, 0, swapCalldata⟩]

/-- The Safe transaction assembled by `SafeOperations.proposeAaveDeposit`
(lines 639-664): always the two-call batch approve-then-supply, both
directed at the Aave pool as spender. -/
def proposeAaveDepositTx (pool safeAddress tokenAddress : String)
    (amountRaw : Nat) : List MetaTransactionData :=
  buildBatchTx
    [⟨tokenAddress, 0, buildApproveCalldata pool amountRaw⟩,
     ⟨pool, 0, buildSupplyCalldata tokenAddress amountRaw safeAddress⟩]

/-! ### The Proposal records persisted by the propose-family operations

Each `proposeXxxProposal` is the object literal saved through
`stateManager.addProposal` by the corresponding `SafeOperations` method;
the hash and timestamp come from the vault SDK and the clock. -/

/-- Proposal saved by `SafeOperations.proposeSendETH` (lines 147-156). -/
def proposeSendETHProposal (toA amountEth : String) (amountWei : Nat)
    (safeTxHash createdAt : String) : Proposal :=
  { safeTxHash
    status := ProposalStatus.proposed
    description := "Send " ++ amountEth ++ " ETH to " ++ toA
    toAddress := toA
    value := toString amountWei
    data := Calldata.empty
    createdAt }

/-- Proposal saved by `SafeOperations.proposeSendERC20` (lines 216-225). -/
def proposeSendERC20Proposal (tokenAddress toA amount symbol : String)
    (amountRaw : Nat) (safeTxHash createdAt : String) : Proposal :=
  { safeTxHash
    status := ProposalStatus.proposed
    description := "Send " ++ amount ++ " " ++ symbol ++ " to " ++ toA
    toAddress := tokenAddress
    value := "0"
    data := Calldata.erc20Transfer toA amountRaw
    createdAt }

/-- Proposal saved by `SafeOperations.proposeSwap` (lines 496-512). -/
def proposeSwapProposal (swapRouter safeAddress fromToken amount : String)
    (q : SwapQuoteRaw) (fee : Nat) (safeTxHash createdAt : String) : Proposal :=
  { safeTxHash
    status := ProposalStatus.proposed
    description :=
      (if isNativeETH fromToken then "Swap " else "Approve + Swap ") ++
        amount ++ " " ++ q.fromTokenR.symbol ++ " → " ++ q.toTokenR.symbol
    toAddress := swapRouter
    value := if isNativeETH fromToken then toString q.amountInRaw else "0"
    data :=
      buildSwapCalldata q.fromTokenR.address q.toTokenR.address fee safeAddress
        q.amountInRaw q.amountOutMinRaw
    createdAt
    swapDetails := some
      { fromToken := q.fromTokenR.symbol
        toToken := q.toTokenR.symbol
        fromAmount := amount
        expectedToAmount := toString q.amountOutRaw
        minToAmount := toString q.amountOutMinRaw } }

/-- Proposal saved by `SafeOperations.proposeWrapETH` (lines 558-567). -/
def proposeWrapETHProposal (weth amountEth : String) (amountWei : Nat)
    (safeTxHash createdAt : String) : Proposal :=
  { safeTxHash
    status := ProposalStatus.proposed
    description := "Wrap " ++ amountEth ++ " ETH → WETH"
    toAddress := weth
    value := toString amountWei
    data := Calldata.wethDeposit
    createdAt }

/-- Proposal saved by `SafeOperations.proposeUnwrapWETH` (lines 607-615). -/
def proposeUnwrapWETHProposal (weth amountWeth : String) (amountWei : Nat)
    (safeTxHash createdAt : String) : Proposal :=
  { safeTxHash
    status := ProposalStatus.proposed
    description := "Unwrap " ++ amountWeth ++ " WETH → ETH"
    toAddress := weth
    value := "0"
    data := Calldata.wethWithdraw amountWei
    createdAt }

/-- Proposal saved by `SafeOperations.proposeAaveDeposit` (lines 680-689). -/
def proposeAaveDepositProposal (pool safeAddress tokenAddress amount symbol : String)
    (amountRaw : Nat) (safeTxHash createdAt : String) : Proposal :=
  { safeTxHash
    status := ProposalStatus.proposed
    description := "Aave Deposit: " ++ amount ++ " " ++ symbol
    toAddress := pool
    value := "0"
    data := buildSupplyCalldata tokenAddress amountRaw safeAddress
    createdAt }

/-- Proposal saved by `SafeOperations.proposeAaveWithdraw` (lines 738-747). -/
def proposeAaveWithdrawProposal (pool safeAddress tokenAddress amountDisplay symbol : String)
    (amountRaw : Nat) (safeTxHash createdAt : String) : Proposal :=
  { safeTxHash
    status := ProposalStatus.proposed
    description := "Aave Withdraw: " ++ amountDisplay ++ " " ++ symbol
    toAddress := pool
    value := "0"
    data := Calldata.aaveWithdraw tokenAddress amountRaw safeAddress
    createdAt }

/-! ### Reachability of ledger states

`Step s s'` holds when one public orchestration call can turn local state
`s` into `s'`; external collaborators' answers are universally quantified
in the constructors, and calls that throw leave the state unchanged (the
`Except`-returning operations only contribute their `ok` outcomes). -/

/-- One public orchestration call, as a relation on local state. -/
inductive Step : SkillState → SkillState → Prop where
  | wizardStart (s : SkillState) (we : Bool) (a : String) :
      Step s (wizardStart s we a)
  | checkAgentFunds (s : SkillState) (we : Bool) (b m : Nat) (ok : Bool)
      (s' : SkillState) (h : checkAgentFunds s we b m = Except.ok (ok, s')) :
      Step s s'
  | addOwnerAddress (cs : String → String) (s : SkillState) (we : Bool)
      (agent input c : String) (s' : SkillState)
      (h : addOwnerAddress cs s we agent input = Except.ok (c, s')) :
      Step s s'
  | deploySafe (s : SkillState) (we : Bool) (sa tx : String) (s' : SkillState)
      (h : deploySafe s we sa tx = Except.ok s') : Step s s'
  | proposeSendETH (s : SkillState) (toA amountEth : String) (amountWei : Nat)
      (hash createdAt : String) :
      Step s (addProposal s (proposeSendETHProposal toA amountEth amountWei hash createdAt))
  | proposeSendERC20 (s : SkillState) (tok toA amount symbol : String)
      (amountRaw : Nat) (hash createdAt : String) :
      Step s (addProposal s
        (proposeSendERC20Proposal tok toA amount symbol amountRaw hash createdAt))
  | proposeSwap (s : SkillState) (router safeAddr fromToken amount : String)
      (q : SwapQuoteRaw) (fee : Nat) (hash createdAt : String) :
      Step s (addProposal s
        (proposeSwapProposal router safeAddr fromToken amount q fee hash createdAt))
  | proposeWrapETH (s : SkillState) (weth amountEth : String) (amountWei : Nat)
      (hash createdAt : String) :
      Step s (addProposal s (proposeWrapETHProposal weth amountEth amountWei hash createdAt))
  | proposeUnwrapWETH (s : SkillState) (weth amountWeth : String) (amountWei : Nat)
      (hash createdAt : String) :
      Step s (addProposal s
        (proposeUnwrapWETHProposal weth amountWeth amountWei hash createdAt))
  | proposeAaveDeposit (s : SkillState) (pool safeAddr tok amount symbol : String)
      (amountRaw : Nat) (hash createdAt : String) :
      Step s (addProposal s
        (proposeAaveDepositProposal pool safeAddr tok amount symbol amountRaw hash createdAt))
  | proposeAaveWithdraw (s : SkillState) (pool safeAddr tok amountDisplay symbol : String)
      (amountRaw : Nat) (hash createdAt : String) :
      Step s (addProposal s
        (proposeAaveWithdrawProposal pool safeAddr tok amountDisplay symbol amountRaw hash createdAt))
  | checkProposalStatus (s : SkillState) (hash : String) (d : TransactionDetails) :
      Step s (checkProposalStatus s hash d).2
  | executeIfReady (s : SkillState) (hash : String) (d : TransactionDetails)
      (execHash : String) :
      Step s (executeIfReady s hash d execHash).2.1
  | agentSignTransaction (s : SkillState) (hash agent : String)
      (d1 d2 : TransactionDetails) :
      Step s (agentSignTransaction s hash agent d1 d2).2

/-- A local state reachable from the initial installation state. -/
def Reachable (s : SkillState) : Prop :=
  Relation.ReflTransGen Step createInitialState s

/-- No stored proposal carries the DRAFT status. -/
def noDraftStored (s : SkillState) : Prop :=
  ∀ h p, s.proposals h = some p → p.status ≠ ProposalStatus.draft

/-! ### Order on statuses and wizard phases, and auxiliary predicates -/

/-- Position of a status along the forward chain
DRAFT→PROPOSED→OWNER_CONFIRMED→EXECUTED, with FAILED terminal. -/
def statusRank : ProposalStatus → Nat
  | ProposalStatus.draft => 0
  | ProposalStatus.proposed => 1
  | ProposalStatus.ownerConfirmed => 2
  | ProposalStatus.executed => 3
  | ProposalStatus.failed => 4

/-- The proposal under `hash`, if present in `s`, is still present in `s'`
with a status at least as far along the chain. -/
def statusProgress (s s' : SkillState) (hash : String) : Prop :=
  ∀ st, statusOf s hash = some st →
    ∃ st', statusOf s' hash = some st' ∧ statusRank st ≤ statusRank st'

/-- Position of a wizard phase along the onboarding sequence. -/
def wizardRank : WizardState → Nat
  | WizardState.INIT => 0
  | WizardState.AGENT_WALLET_CREATED => 1
  | WizardState.AWAIT_USER_FUNDS_CONFIRMATION => 2
  | WizardState.AWAIT_OWNER_ADDRESS => 3
  | WizardState.READY_TO_DEPLOY_SAFE => 4
  | WizardState.SAFE_DEPLOYED => 5
  | WizardState.READY => 6

/-- The agent's address (case-insensitively) does not occur in the stored
human-owner list. -/
def agentNotOwner (agent : String) (s : SkillState) : Prop :=
  ∀ o ∈ s.ownerAddresses, strLower o ≠ strLower agent

/-- A sequence of `addOwnerAddress` calls (each with its own
wallet-existence flag and input), applied in order; a call that throws
leaves the state as it was. -/
def runAddOwners (checksum : String → String) (agent : String)
    (inputs : List (Bool × String)) (s : SkillState) : SkillState :=
  inputs.foldl
    (fun st p =>
      match addOwnerAddress checksum st p.1 agent p.2 with
      | Except.ok r => r.2
      | Except.error _ => st) s

/-! ### Concrete states and remote answers used as counterexample inputs -/

/-- A ledger holding a single proposal already marked EXECUTED. -/
def executedLedger : SkillState :=
  addProposal createInitialState
    { safeTxHash := "0xhash1"
      status := ProposalStatus.executed
      description := "Send 1 ETH to 0xabc"
      toAddress := "0xabc"
      value := "1000000000000000000"
      data := Calldata.empty
      createdAt := "2026-01-01T00:00:00Z" }

/-- A remote answer with threshold confirmations collected but the
execution not (or not yet) reported: one confirmation, one required,
`isExecuted = false`. -/
def staleDetails : TransactionDetails :=
  { confirmations := [⟨"0xowner1", "2026-01-02T00:00:00Z", "0xsig1"⟩]
    confirmationsRequired := 1
    isExecuted := false }

/-- A ledger holding a single proposal in the freshly-created PROPOSED
status. -/
def proposedLedger : SkillState :=
  addProposal createInitialState
    { safeTxHash := "0xhash1"
      status := ProposalStatus.proposed
      description := "Send 1 ETH to 0xabc"
      toAddress := "0xabc"
      value := "1000000000000000000"
      data := Calldata.empty
      createdAt := "2026-01-01T00:00:00Z" }

/-- A remote answer reporting the transaction as already executed, with no
stored confirmations returned. -/
def executedDetails : TransactionDetails :=
  { confirmations := []
    confirmationsRequired := 1
    isExecuted := true
    transactionHash := some "0xexecuted" }

/-! ## Helper lemmas about the ledger operations -/

/-- The `updateProposalStatus` on an absent hash is the identity. -/
theorem updateProposalStatus_of_none {s : SkillState} {h : String}
    (st : ProposalStatus) (e : Option String) (hn : s.proposals h = none) :
    updateProposalStatus s h st e = s := by
  simp [updateProposalStatus, hn]

/-- The `updateProposalStatus` on a present hash stores the requested status
under that hash. -/
theorem proposals_updateProposalStatus_some {s : SkillState} {h : String}
    {p : Proposal} (st : ProposalStatus) (e : Option String)
    (hp : s.proposals h = some p) :
    (updateProposalStatus s h st e).proposals h =
      some { p with status := st
                    executedTxHash :=
                      match e with
                      | some t => if t = "" then p.executedTxHash else some t
                      | none => p.executedTxHash } := by
  simp [updateProposalStatus, hp]

/-- The `updateProposalStatus` leaves every other hash untouched. -/
theorem proposals_updateProposalStatus_ne (s : SkillState) (h : String)
    (st : ProposalStatus) (e : Option String) (h' : String) (hne : h' ≠ h) :
    (updateProposalStatus s h st e).proposals h' = s.proposals h' := by
  unfold updateProposalStatus
  cases hp : s.proposals h <;> simp [hne]

/-- The `updateProposalStatus` keeps all non-proposal fields of the state. -/
theorem updateProposalStatus_fields (s : SkillState) (h : String)
    (st : ProposalStatus) (e : Option String) :
    (updateProposalStatus s h st e).wizardState = s.wizardState ∧
    (updateProposalStatus s h st e).agentAddress = s.agentAddress ∧
    (updateProposalStatus s h st e).ownerAddresses = s.ownerAddresses ∧
    (updateProposalStatus s h st e).safeAddress = s.safeAddress ∧
    (updateProposalStatus s h st e).deployTxHash = s.deployTxHash := by
  unfold updateProposalStatus
  cases hp : s.proposals h <;> simp

/-- Presence of a hash is preserved by `updateProposalStatus`. -/
theorem statusOf_updateProposalStatus_some {s : SkillState} {h : String}
    {p : Proposal} (st : ProposalStatus) (e : Option String)
    (hp : s.proposals h = some p) :
    statusOf (updateProposalStatus s h st e) h = some st := by
  simp [statusOf, proposals_updateProposalStatus_some st e hp]

/-- The status stored under `h` after `checkProposalStatus`: absent hashes
stay absent; a reported execution wins; otherwise threshold confirmations
give OWNER_CONFIRMED; otherwise the old status survives. -/
theorem statusOf_checkProposalStatus (s : SkillState) (h : String)
    (d : TransactionDetails) :
    statusOf (checkProposalStatus s h d).2 h =
      match s.proposals h with
      | none => none
      | some p =>
          if d.isExecuted then some ProposalStatus.executed
          else if d.confirmations.length ≥ d.confirmationsRequired then
            some ProposalStatus.ownerConfirmed
          else some p.status := by
  unfold checkProposalStatus
  cases hp : s.proposals h with
  | none =>
      by_cases hc : d.confirmations.length ≥ d.confirmationsRequired <;>
        cases hx : d.isExecuted <;>
        simp [hc, hx, updateProposalStatus_of_none _ _ hp, statusOf, hp]
  | some p =>
      by_cases hc : d.confirmations.length ≥ d.confirmationsRequired <;>
        cases hx : d.isExecuted <;>
        simp [hc, hx, statusOf, hp,
          statusOf_updateProposalStatus_some, proposals_updateProposalStatus_some,
          updateProposalStatus_of_none]

/-- The `checkProposalStatus` leaves every other hash untouched. -/
theorem proposals_checkProposalStatus_ne (s : SkillState) (h : String)
    (d : TransactionDetails) (h' : String) (hne : h' ≠ h) :
    (checkProposalStatus s h d).2.proposals h' = s.proposals h' := by
  unfold checkProposalStatus
  by_cases hc : d.confirmations.length ≥ d.confirmationsRequired <;>
    cases hx : d.isExecuted <;>
      simp [hc, hx, proposals_updateProposalStatus_ne, hne]

/-! ## Theorems for the claims -/

/-- C6: for every successfully returned swap quote, the minimum acceptable
output equals the expected output times (1 − 0.5%) rounded down to an
integer raw amount — `floor(amountOut * 995 / 1000)` — and is therefore
never larger than the expected output. -/
theorem quote_min_output_slippage_floor :
    ∀ (weth : String) (tokens : List TokenConfig) (fromToken toToken : String)
      (amountInRaw fee : Nat) (pool : Option String) (qOut qGas : Nat)
      (q : SwapQuoteRaw),
      getQuote weth tokens fromToken toToken amountInRaw fee pool qOut qGas =
        Except.ok q →
      q.amountOutMinRaw = q.amountOutRaw * (1000 - 5) / 1000 ∧
      q.amountOutMinRaw ≤ q.amountOutRaw := by
  intro weth tokens fromToken toToken amountInRaw fee pool qOut qGas q hq
  cases pool with
  | none => simp [getQuote] at hq
  | some p =>
      simp [getQuote] at hq
      subst hq
      simp [amountOutMinOf, slippageMultiplier]
      omega

/-- Quote instance used to witness `quote_min_output_slippage_floor`. -/
def witnessQuote : SwapQuoteRaw :=
  { fromTokenR := ⟨"0x4200000000000000000000000000000000000006", 18, "ETH"⟩
    toTokenR := ⟨"0x4200000000000000000000000000000000000006", 18, "ETH"⟩
    amountInRaw := 100
    amountOutRaw := 1001
    amountOutMinRaw := 995
    poolFee := 3000
    gasEstimate := 7 }

/-- Witness: the slippage theorem applied to a concrete successful quote. -/
theorem quote_min_output_slippage_floor_witness :
    witnessQuote.amountOutMinRaw = witnessQuote.amountOutRaw * (1000 - 5) / 1000 ∧
    witnessQuote.amountOutMinRaw ≤ witnessQuote.amountOutRaw :=
  quote_min_output_slippage_floor
    "0x4200000000000000000000000000000000000006" [] "ETH" "ETH" 100 3000
    (some "0xpool") 1001 7 witnessQuote (by decide)

/-- C2: the confirmation list handed to the vault-SDK reconstruction step
by `executeIfReady` (via `executeTransactionFromService`) is a
permutation of the collected confirmations, sorted ascending by
(lower-cased) owner address; in particular owners 0xB, 0xA, 0xC are
presented as 0xA, 0xB, 0xC. -/
theorem executeIfReady_signatures_sorted_ascending :
    ∀ confirmations : List Confirmation,
      (sortConfirmations confirmations).Perm confirmations ∧
      List.Sorted confLE (sortConfirmations confirmations) ∧
      sortConfirmations
          [⟨"0xB", "2026-01-01", "0xsB"⟩, ⟨"0xA", "2026-01-02", "0xsA"⟩,
           ⟨"0xC", "2026-01-03", "0xsC"⟩] =
        [⟨"0xA", "2026-01-02", "0xsA"⟩, ⟨"0xB", "2026-01-01", "0xsB"⟩,
         ⟨"0xC", "2026-01-03", "0xsC"⟩] :=
  fun confirmations =>
    ⟨List.perm_insertionSort confLE confirmations,
     List.sorted_insertionSort confLE confirmations, by decide⟩

/-- C3: an ERC20-input swap and a lending supply are each one batch of
exactly two calls — the approval to the spender first, then the action
call to that same spender — while a native-ETH swap is a single call. -/
theorem approval_batches_are_approve_then_act :
    ∀ (swapRouter safeAddress fromToken : String) (q : SwapQuoteRaw) (fee : Nat)
      (pool tokenAddress : String) (amountRaw : Nat),
      (isNativeETH fromToken = false →
        (proposeSwapTx swapRouter safeAddress fromToken q fee).length = 2 ∧
        (proposeSwapTx swapRouter safeAddress fromToken q fee)[0]? =
          some ⟨q.fromTokenR.address, 0,
            buildApproveCalldata swapRouter q.amountInRaw⟩ ∧
        ((proposeSwapTx swapRouter safeAddress fromToken q fee)[1]?).map
            MetaTransactionData.toAddress = some swapRouter) ∧
      (isNativeETH fromToken = true →
        (proposeSwapTx swapRouter safeAddress fromToken q fee).length = 1 ∧
        (proposeSwapTx swapRouter safeAddress fromToken q fee)[0]? =
          some ⟨swapRouter, q.amountInRaw,
            buildSwapCalldata q.fromTokenR.address q.toTokenR.address fee
              safeAddress q.amountInRaw q.amountOutMinRaw⟩) ∧
      (proposeAaveDepositTx pool safeAddress tokenAddress amountRaw).length = 2 ∧
      (proposeAaveDepositTx pool safeAddress tokenAddress amountRaw)[0]? =
        some ⟨tokenAddress, 0, buildApproveCalldata pool amountRaw⟩ ∧
      ((proposeAaveDepositTx pool safeAddress tokenAddress amountRaw)[1]?).map
          MetaTransactionData.toAddress = some pool := by
  intro swapRouter safeAddress fromToken q fee pool tokenAddress amountRaw
  refine ⟨fun hn => ?_, fun hn => ?_, ?_, ?_, ?_⟩
  case _ =>
    simp [proposeSwapTx, buildBatchTx, buildApproveCalldata, buildSwapCalldata, hn]
  case _ =>
    simp [proposeSwapTx, buildRawTx, buildSwapCalldata, hn]
  all_goals
    simp [proposeAaveDepositTx, buildBatchTx, buildApproveCalldata,
      buildSupplyCalldata]

/-- Witness: the batching theorem applied to a concrete ERC20-input swap. -/
theorem approval_batches_are_approve_then_act_witness :
    (proposeSwapTx "0xrouter" "0xsafe" "USDC" witnessQuote 3000).length = 2 ∧
    (proposeSwapTx "0xrouter" "0xsafe" "USDC" witnessQuote 3000)[0]? =
      some ⟨witnessQuote.fromTokenR.address, 0,
        buildApproveCalldata "0xrouter" witnessQuote.amountInRaw⟩ ∧
    ((proposeSwapTx "0xrouter" "0xsafe" "USDC" witnessQuote 3000)[1]?).map
        MetaTransactionData.toAddress = some "0xrouter" :=
  (approval_batches_are_approve_then_act "0xrouter" "0xsafe" "USDC"
    witnessQuote 3000 "0xpool" "0xtok" 5).1 (by decide)

/-- C7 counterexample: the input FOO is neither a known symbol (the table
is empty) nor a syntactically valid address, yet `UniswapService.resolveToken`
does not fail — it resolves it as-is with 18 decimals and the generic
TOKEN label. -/
theorem uniswapResolveToken_accepts_unknown_symbol :
    isAddress "FOO" = false ∧
    uniswapResolveToken "0x4200000000000000000000000000000000000006" [] "FOO" =
      ⟨"FOO", 18, "TOKEN"⟩ := by
  decide

/-- C7 amended: `UniswapService.resolveToken` is total — ETH maps to the
wrapped-native address, known entries resolve from the merged table, and
any other input (address-like or not) is returned as an address with 18
decimals and a generic label, without an on-chain read and without
failing. `AaveService.resolveToken` resolves known entries from the table,
reads decimals on-chain for unlisted inputs that start with 0x (labelling
them generically, and failing when that read fails), and fails with the
unresolvable-asset error exactly when the input is unlisted and not
0x-prefixed. -/
theorem resolveToken_behavior :
    ∀ (weth input : String) (tokens : List TokenConfig) (dcm : Nat),
      (strUpper input = "ETH" →
        uniswapResolveToken weth tokens input = ⟨weth, 18, "ETH"⟩) ∧
      (∀ t, strUpper input ≠ "ETH" → findToken tokens input = some t →
        uniswapResolveToken weth tokens input = ⟨t.address, t.decimals, t.symbol⟩) ∧
      (strUpper input ≠ "ETH" → findToken tokens input = none →
        uniswapResolveToken weth tokens input = ⟨input, 18, "TOKEN"⟩) ∧
      (∀ t cd, findToken tokens input = some t →
        aaveResolveToken tokens input cd = Except.ok ⟨t.address, t.decimals, t.symbol⟩) ∧
      (findToken tokens input = none → strStartsWith0x input = true →
        aaveResolveToken tokens input (some dcm) = Except.ok ⟨input, dcm, "TOKEN"⟩) ∧
      (findToken tokens input = none → strStartsWith0x input = false →
        ∀ cd r, aaveResolveToken tokens input cd ≠ Except.ok r) ∧
      (findToken tokens input = none → strStartsWith0x input = true →
        ∀ r, aaveResolveToken tokens input none ≠ Except.ok r) := by
  intro weth input tokens dcm
  refine ⟨fun he => ?_, fun t he hf => ?_, fun he hf => ?_,
    fun t cd hf => ?_, fun hf h0 => ?_, fun hf h0 cd r => ?_, fun hf h0 r => ?_⟩
  · simp [uniswapResolveToken, he]
  · simp [uniswapResolveToken, he, hf]
  · simp [uniswapResolveToken, he, hf]
  · simp [aaveResolveToken, hf]
  · simp [aaveResolveToken, hf, h0]
  · cases cd <;> simp [aaveResolveToken, hf, h0]
  · simp [aaveResolveToken, hf, h0]

/-- Witness: the resolution theorem applied to a known symbol, an ad-hoc
0x input and a plain unknown symbol. -/
theorem resolveToken_behavior_witness :
    uniswapResolveToken "0xw" [⟨"USDC", "0xusdc", 6⟩] "usdc" =
      ⟨"0xusdc", 6, "USDC"⟩ ∧
    aaveResolveToken [⟨"USDC", "0xusdc", 6⟩] "0xffff" (some 8) =
      Except.ok ⟨"0xffff", 8, "TOKEN"⟩ ∧
    aaveResolveToken [⟨"USDC", "0xusdc", 6⟩] "FOO" none ≠
      Except.ok ⟨"FOO", 18, "TOKEN"⟩ :=
  ⟨(resolveToken_behavior "0xw" "usdc" [⟨"USDC", "0xusdc", 6⟩] 8).2.1
      ⟨"USDC", "0xusdc", 6⟩ (by decide) (by decide),
   (resolveToken_behavior "0xw" "0xffff" [⟨"USDC", "0xusdc", 6⟩] 8).2.2.2.2.1
      (by decide) (by decide),
   (resolveToken_behavior "0xw" "FOO" [⟨"USDC", "0xusdc", 6⟩] 8).2.2.2.2.2.1
      (by decide) (by decide) none ⟨"FOO", 18, "TOKEN"⟩⟩

/-- C8 counterexample: `executeIfReady` on a proposal the remote service
reports as already executed returns `executed = false` and submits no
execution, but the nested `checkProposalStatus` sync does advance the
locally stored status from PROPOSED to EXECUTED during the call. -/
theorem executeIfReady_already_executed_advances_status :
    (executeIfReady proposedLedger "0xhash1" executedDetails "0xnew").1.executed
        = false ∧
    (executeIfReady proposedLedger "0xhash1" executedDetails "0xnew").2.2 = false ∧
    statusOf proposedLedger "0xhash1" = some ProposalStatus.proposed ∧
    statusOf (executeIfReady proposedLedger "0xhash1" executedDetails "0xnew").2.1
        "0xhash1" = some ProposalStatus.executed := by
  decide

/-- C8 amended: on a proposal that is already executed remotely or short
of the confirmation threshold, `executeIfReady` returns a structured
result with `executed = false` and submits no execution; its only ledger
effect is the remote-status sync performed by the nested
`checkProposalStatus` (which can record an already-reported execution but
never submits one). -/
theorem executeIfReady_not_ready_reports_without_submission :
    ∀ (s : SkillState) (hash : String) (d : TransactionDetails) (execHash : String),
      (d.isExecuted = true ∨ d.confirmations.length < d.confirmationsRequired) →
      (executeIfReady s hash d execHash).1.executed = false ∧
      (executeIfReady s hash d execHash).2.2 = false ∧
      (executeIfReady s hash d execHash).2.1 = (checkProposalStatus s hash d).2 := by
  intro s hash d execHash hnr
  cases hx : d.isExecuted with
  | true => simp [executeIfReady, checkProposalStatus, hx]
  | false =>
      rcases hnr with hex | hshort
      · exact absurd hex (by simp [hx])
      · simp [executeIfReady, checkProposalStatus, hx, Nat.not_le.mpr hshort]

/-- Witness: the not-ready theorem applied to a proposal with zero of two
required confirmations. -/
theorem executeIfReady_not_ready_witness :
    (executeIfReady proposedLedger "0xhash1" ⟨[], 2, false, none⟩ "0xnew").1.executed
        = false ∧
    (executeIfReady proposedLedger "0xhash1" ⟨[], 2, false, none⟩ "0xnew").2.2
        = false ∧
    (executeIfReady proposedLedger "0xhash1" ⟨[], 2, false, none⟩ "0xnew").2.1 =
      (checkProposalStatus proposedLedger "0xhash1" ⟨[], 2, false, none⟩).2 :=
  executeIfReady_not_ready_reports_without_submission proposedLedger "0xhash1"
    ⟨[], 2, false, none⟩ "0xnew" (Or.inr (by decide))

/-- C10: `updateProposalStatus` on an unknown hash is a silent no-op and
`checkProposalStatus` on an unknown hash still returns the remote data
while leaving the whole local state untouched (no entry is created); on a
known hash only `status` and `executedTxHash` of that proposal change, and
every other hash is untouched. -/
theorem updateProposalStatus_frame :
    ∀ (s : SkillState) (h : String) (st : ProposalStatus) (e : Option String)
      (d : TransactionDetails) (h' : String) (p : Proposal),
      (s.proposals h = none → updateProposalStatus s h st e = s) ∧
      (s.proposals h = none →
        (checkProposalStatus s h d).2 = s ∧
        (checkProposalStatus s h d).1.confirmations = d.confirmations ∧
        (checkProposalStatus s h d).1.confirmationsRequired =
          d.confirmationsRequired ∧
        (checkProposalStatus s h d).1.isExecuted = d.isExecuted) ∧
      (s.proposals h = some p →
        ((updateProposalStatus s h st e).proposals h).map Proposal.safeTxHash =
          some p.safeTxHash ∧
        ((updateProposalStatus s h st e).proposals h).map Proposal.description =
          some p.description ∧
        ((updateProposalStatus s h st e).proposals h).map Proposal.toAddress =
          some p.toAddress ∧
        ((updateProposalStatus s h st e).proposals h).map Proposal.value =
          some p.value ∧
        ((updateProposalStatus s h st e).proposals h).map Proposal.data =
          some p.data ∧
        ((updateProposalStatus s h st e).proposals h).map Proposal.createdAt =
          some p.createdAt ∧
        ((updateProposalStatus s h st e).proposals h).map Proposal.swapDetails =
          some p.swapDetails ∧
        ((updateProposalStatus s h st e).proposals h).map Proposal.status =
          some st) ∧
      (h' ≠ h →
        (updateProposalStatus s h st e).proposals h' = s.proposals h' ∧
        (checkProposalStatus s h d).2.proposals h' = s.proposals h') := by
  intro s h st e d h' p
  refine ⟨fun hn => updateProposalStatus_of_none st e hn,
    fun hn => ⟨?_, by simp [checkProposalStatus], by simp [checkProposalStatus],
      by simp [checkProposalStatus]⟩,
    fun hp => ?_, fun hne => ⟨proposals_updateProposalStatus_ne s h st e h' hne,
      proposals_checkProposalStatus_ne s h d h' hne⟩⟩
  · unfold checkProposalStatus
    by_cases hc : d.confirmations.length ≥ d.confirmationsRequired <;>
      cases hx : d.isExecuted <;>
        simp [hc, hx, updateProposalStatus_of_none _ _ hn]
  · simp [proposals_updateProposalStatus_some st e hp]

/-- Witness: the frame theorem applied to a ledger not containing the
queried hash, and to the hash it does contain. -/
theorem updateProposalStatus_frame_witness :
    updateProposalStatus proposedLedger "0xother" ProposalStatus.executed none =
      proposedLedger ∧
    (updateProposalStatus proposedLedger "0xhash1" ProposalStatus.executed
        (some "0xe")).proposals "0xother" = proposedLedger.proposals "0xother" :=
  ⟨(updateProposalStatus_frame proposedLedger "0xother" ProposalStatus.executed
      none ⟨[], 1, false, none⟩ "0xzz"
      (proposeSendETHProposal "0xabc" "1" 10 "0xhash1" "t")).1 (by decide),
   ((updateProposalStatus_frame proposedLedger "0xhash1" ProposalStatus.executed
      (some "0xe") ⟨[], 1, false, none⟩ "0xother"
      (proposeSendETHProposal "0xabc" "1" 10 "0xhash1" "t")).2.2.2
      (by decide)).1⟩

/-! ## Lemmas towards proposal-status monotonicity -/

/-- Every status other than FAILED sits at or below EXECUTED in the
forward chain. -/
theorem statusRank_le_executed {st : ProposalStatus}
    (h : st ≠ ProposalStatus.failed) :
    statusRank st ≤ statusRank ProposalStatus.executed := by
  cases st <;> simp_all [statusRank]

/-- The `statusProgress` composes. -/
theorem statusProgress_trans {s1 s2 s3 : SkillState} {h : String}
    (a : statusProgress s1 s2 h) (b : statusProgress s2 s3 h) :
    statusProgress s1 s3 h := by
  intro st hst
  obtain ⟨st2, h2, r2⟩ := a st hst
  obtain ⟨st3, h3, r3⟩ := b st2 h2
  exact ⟨st3, h3, le_trans r2 r3⟩

/-- The `checkProposalStatus` never regresses the stored status when the
remote answer reports executed proposals as executed and the stored
status is not the (unreachable) FAILED. -/
theorem checkProposalStatus_progress (s : SkillState) (hash : String)
    (d : TransactionDetails)
    (hacc : statusOf s hash = some ProposalStatus.executed → d.isExecuted = true)
    (hnf : statusOf s hash ≠ some ProposalStatus.failed) :
    statusProgress s (checkProposalStatus s hash d).2 hash := by
  intro st hst
  have hkey := statusOf_checkProposalStatus s hash d
  cases hp : s.proposals hash with
  | none => simp [statusOf, hp] at hst
  | some p =>
      have hstp : p.status = st := by simpa [statusOf, hp] using hst
      rw [hp] at hkey
      have hstnf : st ≠ ProposalStatus.failed := fun he => hnf (he ▸ hst)
      cases hx : d.isExecuted with
      | true =>
          exact ⟨ProposalStatus.executed, by simpa [hx] using hkey,
            statusRank_le_executed hstnf⟩
      | false =>
          have hstne : st ≠ ProposalStatus.executed := fun he => by
            rw [he] at hst
            rw [hacc hst] at hx
            exact Bool.noConfusion hx
          by_cases hc : d.confirmations.length ≥ d.confirmationsRequired
          · refine ⟨ProposalStatus.ownerConfirmed, by simpa [hx, hc] using hkey, ?_⟩
            cases st <;> simp_all [statusRank]
          · exact ⟨st, by simpa [hx, hc, hstp] using hkey, le_refl _⟩

/-- A hash present before `updateProposalStatus` is present after it. -/
theorem proposals_updateProposalStatus_none_iff (s : SkillState) (h : String)
    (st : ProposalStatus) (e : Option String) :
    (updateProposalStatus s h st e).proposals h = none ↔ s.proposals h = none := by
  unfold updateProposalStatus
  cases hp : s.proposals h <;> simp [hp]

/-- A hash present before `checkProposalStatus` is present after it. -/
theorem proposals_checkProposalStatus_none_iff (s : SkillState) (hash : String)
    (d : TransactionDetails) :
    (checkProposalStatus s hash d).2.proposals hash = none ↔
      s.proposals hash = none := by
  unfold checkProposalStatus
  by_cases hc : d.confirmations.length ≥ d.confirmationsRequired <;>
    cases hx : d.isExecuted <;>
      simp [hc, hx, proposals_updateProposalStatus_none_iff]

/-- The status stored by `checkProposalStatus` is never FAILED unless it
already was. -/
theorem statusOf_checkProposalStatus_ne_failed (s : SkillState) (hash : String)
    (d : TransactionDetails)
    (hnf : statusOf s hash ≠ some ProposalStatus.failed) :
    statusOf (checkProposalStatus s hash d).2 hash ≠ some ProposalStatus.failed := by
  have hkey := statusOf_checkProposalStatus s hash d
  cases hp : s.proposals hash with
  | none => rw [hp] at hkey; simp [hkey]
  | some p =>
      rw [hp] at hkey
      cases hx : d.isExecuted with
      | true => rw [hkey]; simp [hx]
      | false =>
          by_cases hc : d.confirmations.length ≥ d.confirmationsRequired
          · rw [hkey]; simp [hx, hc]
          · rw [hkey]
            simpa [hx, hc, statusOf, hp] using hnf

/-- The new-state component of `executeIfReady` is either the status sync
alone or the sync followed by marking EXECUTED. -/
theorem executeIfReady_state_cases (s : SkillState) (hash : String)
    (d : TransactionDetails) (execHash : String) :
    (executeIfReady s hash d execHash).2.1 = (checkProposalStatus s hash d).2 ∨
    (executeIfReady s hash d execHash).2.1 =
      updateProposalStatus (checkProposalStatus s hash d).2 hash
        ProposalStatus.executed (some execHash) := by
  unfold executeIfReady
  cases hx : d.isExecuted with
  | true => left; simp [checkProposalStatus, hx]
  | false =>
      by_cases hc : d.confirmations.length ≥ d.confirmationsRequired
      · right; simp [checkProposalStatus, hx, hc]
      · left; simp [checkProposalStatus, hx, hc]

/-- The new-state component of `agentSignTransaction` is the first status
sync, possibly followed by the post-confirmation sync. -/
theorem agentSignTransaction_state_cases (s : SkillState) (hash agent : String)
    (d1 d2 : TransactionDetails) :
    (agentSignTransaction s hash agent d1 d2).2 =
      (checkProposalStatus s hash d1).2 ∨
    (agentSignTransaction s hash agent d1 d2).2 =
      (checkProposalStatus (checkProposalStatus s hash d1).2 hash d2).2 := by
  unfold agentSignTransaction
  cases hx : d1.isExecuted with
  | true => left; simp [checkProposalStatus, hx]
  | false =>
      by_cases ha : (d1.confirmations.any
          (fun c => strLower c.owner = strLower agent)) = true
      · left; simp [checkProposalStatus, hx, ha]
      · right; simp [checkProposalStatus, hx, ha]

/-- C1 counterexample: a proposal already EXECUTED locally is regressed to
OWNER_CONFIRMED by `checkProposalStatus` when the remote answer carries
threshold confirmations but does not (yet) report the execution. -/
theorem checkProposalStatus_regresses_executed_status :
    statusOf executedLedger "0xhash1" = some ProposalStatus.executed ∧
    statusOf (checkProposalStatus executedLedger "0xhash1" staleDetails).2
        "0xhash1" = some ProposalStatus.ownerConfirmed := by
  decide

/-- C1 amended: provided every remote answer reports a locally EXECUTED
proposal as executed (`isExecuted = true`) and the stored status is not
the unreachable FAILED, none of `checkProposalStatus`, `executeIfReady`
and `agentSignTransaction` moves the stored status backward; without that
accuracy proviso `checkProposalStatus` can regress EXECUTED to
OWNER_CONFIRMED. -/
theorem proposalStatus_monotone_of_accurate_remote :
    ∀ (s : SkillState) (hash agent execHash : String) (d d2 : TransactionDetails),
      (statusOf s hash = some ProposalStatus.executed → d.isExecuted = true) →
      (statusOf (checkProposalStatus s hash d).2 hash =
          some ProposalStatus.executed → d2.isExecuted = true) →
      statusOf s hash ≠ some ProposalStatus.failed →
      statusProgress s (checkProposalStatus s hash d).2 hash ∧
      statusProgress s (executeIfReady s hash d execHash).2.1 hash ∧
      statusProgress s (agentSignTransaction s hash agent d d2).2 hash := by
  intro s hash agent execHash d d2 hacc hacc2 hnf
  have hcheck := checkProposalStatus_progress s hash d hacc hnf
  refine ⟨hcheck, ?_, ?_⟩
  · rcases executeIfReady_state_cases s hash d execHash with he | he
    · rw [he]; exact hcheck
    · rw [he]
      refine statusProgress_trans hcheck ?_
      intro st hst
      have hsome : (checkProposalStatus s hash d).2.proposals hash ≠ none := by
        intro hn
        rw [statusOf, hn] at hst
        exact Option.noConfusion hst
      obtain ⟨q, hq⟩ := Option.ne_none_iff_exists.mp hsome
      have hstnf : st ≠ ProposalStatus.failed := fun he2 =>
        statusOf_checkProposalStatus_ne_failed s hash d hnf (he2 ▸ hst)
      exact ⟨ProposalStatus.executed,
        statusOf_updateProposalStatus_some _ _ hq.symm,
        statusRank_le_executed hstnf⟩
  · rcases agentSignTransaction_state_cases s hash agent d d2 with he | he
    · rw [he]; exact hcheck
    · rw [he]
      exact statusProgress_trans hcheck
        (checkProposalStatus_progress _ hash d2 hacc2
          (statusOf_checkProposalStatus_ne_failed s hash d hnf))

/-- Witness: the monotonicity theorem applied to a PROPOSED proposal with
an accurate remote answer carrying threshold confirmations. -/
theorem proposalStatus_monotone_witness :
    statusProgress proposedLedger
      (checkProposalStatus proposedLedger "0xhash1" staleDetails).2 "0xhash1" ∧
    statusProgress proposedLedger
      (executeIfReady proposedLedger "0xhash1" staleDetails "0xexec").2.1 "0xhash1" ∧
    statusProgress proposedLedger
      (agentSignTransaction proposedLedger "0xhash1" "0xagent" staleDetails
        staleDetails).2 "0xhash1" :=
  proposalStatus_monotone_of_accurate_remote proposedLedger "0xhash1" "0xagent"
    "0xexec" staleDetails staleDetails (by decide) (by decide) (by decide)

/-- C4 counterexample: `checkAgentFunds` invoked after onboarding has
finished (state READY) succeeds with sufficient funds and still rewrites
the wizard state to the earlier AWAIT_OWNER_ADDRESS phase — a regression
that is not the funding-insufficiency retry loop. -/
theorem checkAgentFunds_regresses_ready_state :
    (checkAgentFunds { createInitialState with
        wizardState := WizardState.READY } true 10 5).map
        (fun r => (r.1, r.2.wizardState)) =
      Except.ok (true, WizardState.AWAIT_OWNER_ADDRESS) ∧
    wizardRank WizardState.AWAIT_OWNER_ADDRESS < wizardRank WizardState.READY := by
  decide

/-- C4 amended: each onboarding operation writes a fixed target phase —
`checkAgentFunds` always AWAIT_OWNER_ADDRESS (sufficient) or
AWAIT_USER_FUNDS_CONFIRMATION (insufficient), `addOwnerAddress` always
READY_TO_DEPLOY_SAFE — whatever the current phase is, and `deploySafe`
only succeeds from READY_TO_DEPLOY_SAFE, ending READY. Hence the state
only moves forward (with the funding-insufficiency retry loop as the sole
exception) when each operation is invoked at or before its target phase;
invoked from a later phase (e.g. READY), `checkAgentFunds` and
`addOwnerAddress` move the state backward. -/
theorem wizard_forward_in_intended_order :
    ∀ (s : SkillState) (we ok : Bool) (a : String) (b m : Nat)
      (cs : String → String) (agent input c sa tx : String)
      (s1 s2 s3 : SkillState),
      (we = true ∨ s.wizardState = WizardState.INIT →
        wizardRank s.wizardState ≤ wizardRank (wizardStart s we a).wizardState) ∧
      (checkAgentFunds s we b m = Except.ok (ok, s1) →
        s1.wizardState =
          (if b ≥ m then WizardState.AWAIT_OWNER_ADDRESS
           else WizardState.AWAIT_USER_FUNDS_CONFIRMATION) ∧
        (wizardRank s.wizardState ≤
            wizardRank WizardState.AWAIT_USER_FUNDS_CONFIRMATION →
          wizardRank s.wizardState ≤ wizardRank s1.wizardState) ∧
        (s.wizardState = WizardState.AWAIT_OWNER_ADDRESS →
          s1.wizardState = WizardState.AWAIT_OWNER_ADDRESS ∨
          s1.wizardState = WizardState.AWAIT_USER_FUNDS_CONFIRMATION)) ∧
      (addOwnerAddress cs s we agent input = Except.ok (c, s2) →
        s2.wizardState = WizardState.READY_TO_DEPLOY_SAFE ∧
        (wizardRank s.wizardState ≤ wizardRank WizardState.READY_TO_DEPLOY_SAFE →
          wizardRank s.wizardState ≤ wizardRank s2.wizardState)) ∧
      (deploySafe s we sa tx = Except.ok s3 →
        s.wizardState = WizardState.READY_TO_DEPLOY_SAFE ∧
        s3.wizardState = WizardState.READY) := by
  intro s we ok a b m cs agent input c sa tx s1 s2 s3
  refine ⟨fun hw => ?_, fun hc => ?_, fun ha => ?_, fun hd => ?_⟩
  · cases we with
    | false =>
        rcases hw with hw | hw
        · exact absurd hw (by simp)
        · simp [wizardStart, setWizardState, setAgentAddress, hw, wizardRank]
    | true =>
        by_cases hi : s.wizardState = WizardState.INIT
        · simp [wizardStart, setWizardState, setAgentAddress, hi, wizardRank]
        · simp [wizardStart, setWizardState, setAgentAddress, hi]
  · cases hwe : we with
    | false => rw [hwe] at hc; simp [checkAgentFunds] at hc
    | true =>
        rw [hwe] at hc
        simp [checkAgentFunds] at hc
        obtain ⟨hok, hs1⟩ := hc
        refine ⟨?_, ?_, ?_⟩
        · by_cases hb : b ≥ m <;> simp [← hs1, setWizardState, hb]
        · intro hle
          by_cases hb : b ≥ m
          · have ht : s1.wizardState = WizardState.AWAIT_OWNER_ADDRESS := by
              simp [← hs1, setWizardState, hb]
            rw [ht]
            have h2 : wizardRank WizardState.AWAIT_USER_FUNDS_CONFIRMATION = 2 := rfl
            have h3 : wizardRank WizardState.AWAIT_OWNER_ADDRESS = 3 := rfl
            omega
          · have ht : s1.wizardState = WizardState.AWAIT_USER_FUNDS_CONFIRMATION := by
              simp [← hs1, setWizardState, hb]
            rw [ht]
            exact hle
        · intro hao
          by_cases hb : b ≥ m
          · left; simp [← hs1, setWizardState, hb]
          · right; simp [← hs1, setWizardState, hb]
  · cases hwe : we with
    | false => rw [hwe] at ha; simp [addOwnerAddress] at ha
    | true =>
        rw [hwe] at ha
        cases hia : isAddress input with
        | false => simp [addOwnerAddress, hia] at ha
        | true =>
            by_cases hself : strLower (cs input) = strLower agent
            · simp [addOwnerAddress, hia, hself] at ha
            · simp [addOwnerAddress, hia, hself] at ha
              obtain ⟨-, hs2⟩ := ha
              simp [← hs2, setWizardState, stateAddOwnerAddress, wizardRank]
  · cases hwe : we with
    | false => rw [hwe] at hd; simp [deploySafe] at hd
    | true =>
        rw [hwe] at hd
        by_cases h2 : s.wizardState ≠ WizardState.READY_TO_DEPLOY_SAFE
        · simp [deploySafe, h2] at hd
        · by_cases h3 : s.ownerAddresses = []
          · simp [deploySafe, h2, h3] at hd
          · simp [deploySafe, h2, h3] at hd
            exact ⟨not_not.mp h2, by rw [← hd]; rfl⟩

/-- Deployment-ready state used to witness the wizard theorem. -/
def readyToDeployState : SkillState :=
  { createInitialState with
      wizardState := WizardState.READY_TO_DEPLOY_SAFE
      ownerAddresses := ["0x742d35Cc6634C0532925a3b844Bc454e4438f44e"] }

/-- Witness: the wizard theorem's deploy conjunct applied to a concrete
READY_TO_DEPLOY_SAFE state. -/
theorem wizard_forward_in_intended_order_witness :
    readyToDeployState.wizardState = WizardState.READY_TO_DEPLOY_SAFE ∧
    (setReady (setSafeDeployed readyToDeployState "0xsafe" "0xtx")).wizardState =
      WizardState.READY :=
  (wizard_forward_in_intended_order readyToDeployState true true "a" 10 5 id
    "0xagent" "in" "c" "0xsafe" "0xtx" createInitialState createInitialState
    (setReady (setSafeDeployed readyToDeployState "0xsafe" "0xtx"))).2.2.2 rfl

/-! ## Lemmas towards the agent-not-owner invariant -/

/-- A successful `addOwnerAddress` preserves the absence of the agent's
address from the owner list: the appended address passed the
self-ownership guard. -/
theorem agentNotOwner_addOwnerAddress_ok {cs : String → String} {s : SkillState}
    {we : Bool} {agent input c : String} {s' : SkillState}
    (hinv : agentNotOwner agent s)
    (h : addOwnerAddress cs s we agent input = Except.ok (c, s')) :
    agentNotOwner agent s' := by
  cases hwe : we with
  | false => rw [hwe] at h; simp [addOwnerAddress] at h
  | true =>
      rw [hwe] at h
      cases hia : isAddress input with
      | false => simp [addOwnerAddress, hia] at h
      | true =>
          by_cases hself : strLower (cs input) = strLower agent
          · simp [addOwnerAddress, hia, hself] at h
          · simp [addOwnerAddress, hia, hself] at h
            obtain ⟨-, hs'⟩ := h
            intro o ho
            rw [← hs'] at ho
            simp only [setWizardState, stateAddOwnerAddress] at ho
            by_cases hmem : cs input ∈ s.ownerAddresses
            · rw [if_pos hmem] at ho
              exact hinv o ho
            · rw [if_neg hmem] at ho
              simp only [List.mem_append, List.mem_singleton] at ho
              rcases ho with ho | ho
              · exact hinv o ho
              · rw [ho]; exact hself

/-- Every sequence of `addOwnerAddress` calls preserves the absence of the
agent's address from the owner list. -/
theorem agentNotOwner_runAddOwners (cs : String → String) (agent : String) :
    ∀ (inputs : List (Bool × String)) (s : SkillState),
      agentNotOwner agent s →
      agentNotOwner agent (runAddOwners cs agent inputs s) := by
  intro inputs
  induction inputs with
  | nil => intro s hinv; simpa [runAddOwners] using hinv
  | cons p ps ih =>
      intro s hinv
      have hstep : runAddOwners cs agent (p :: ps) s =
          runAddOwners cs agent ps
            (match addOwnerAddress cs s p.1 agent p.2 with
             | Except.ok r => r.2
             | Except.error _ => s) := rfl
      rw [hstep]
      cases hcall : addOwnerAddress cs s p.1 agent p.2 with
      | ok r =>
          exact ih _ (agentNotOwner_addOwnerAddress_ok hinv (by rw [hcall]))
      | error e =>
          exact ih _ hinv

/-- C5: `addOwnerAddress` never lets the agent's own address into the
stored human-owner list: a successful call preserves the agent's absence,
a call whose checksummed input matches the agent address (case-
insensitively) never succeeds, and any sequence of such calls keeps the
agent out of the owner list. -/
theorem addOwnerAddress_never_adds_agent :
    ∀ (cs : String → String) (agent : String) (s : SkillState) (we : Bool)
      (input : String),
      agentNotOwner agent s →
      (∀ c s', addOwnerAddress cs s we agent input = Except.ok (c, s') →
        agentNotOwner agent s') ∧
      (strLower (cs input) = strLower agent →
        ∀ c s', addOwnerAddress cs s we agent input ≠ Except.ok (c, s')) ∧
      (∀ inputs, agentNotOwner agent (runAddOwners cs agent inputs s)) := by
  intro cs agent s we input hinv
  refine ⟨fun c s' h => agentNotOwner_addOwnerAddress_ok hinv h,
    fun hself c s' h => ?_,
    fun inputs => agentNotOwner_runAddOwners cs agent inputs s hinv⟩
  cases hwe : we with
  | false => rw [hwe] at h; simp [addOwnerAddress] at h
  | true =>
      rw [hwe] at h
      cases hia : isAddress input with
      | false => simp [addOwnerAddress, hia] at h
      | true => simp [addOwnerAddress, hia, hself] at h

/-- Witness: the agent-not-owner theorem applied to a concrete sequence
containing one valid owner address. -/
theorem addOwnerAddress_never_adds_agent_witness :
    agentNotOwner "0xAb5801a7D398351b8bE11C439e05C5b3259aec9B"
      (runAddOwners id "0xAb5801a7D398351b8bE11C439e05C5b3259aec9B"
        [(true, "0x742d35Cc6634C0532925a3b844Bc454e4438f44e")]
        createInitialState) :=
  (addOwnerAddress_never_adds_agent id
    "0xAb5801a7D398351b8bE11C439e05C5b3259aec9B" createInitialState true
    "0x742d35Cc6634C0532925a3b844Bc454e4438f44e"
    (by intro o ho; simp [createInitialState] at ho)).2.2
    [(true, "0x742d35Cc6634C0532925a3b844Bc454e4438f44e")]

/-! ## Lemmas towards DRAFT-unreachability -/

/-- States with the same proposal map agree on `noDraftStored`. -/
theorem noDraftStored_of_proposals_eq {s s' : SkillState}
    (he : s'.proposals = s.proposals) (hs : noDraftStored s) :
    noDraftStored s' := by
  intro h p hp
  rw [he] at hp
  exact hs h p hp

/-- Inserting a non-DRAFT proposal preserves `noDraftStored`. -/
theorem noDraftStored_addProposal {s : SkillState} {p : Proposal}
    (hs : noDraftStored s) (hp : p.status ≠ ProposalStatus.draft) :
    noDraftStored (addProposal s p) := by
  intro h q hq
  have hq' : (if h = p.safeTxHash then some p else s.proposals h) = some q := hq
  by_cases he : h = p.safeTxHash
  · rw [if_pos he] at hq'
    cases hq'
    exact hp
  · rw [if_neg he] at hq'
    exact hs h q hq'

/-- Writing a non-DRAFT status preserves `noDraftStored`. -/
theorem noDraftStored_updateProposalStatus {s : SkillState} {h : String}
    {st : ProposalStatus} {e : Option String}
    (hs : noDraftStored s) (hst : st ≠ ProposalStatus.draft) :
    noDraftStored (updateProposalStatus s h st e) := by
  intro h' q hq
  by_cases he : h' = h
  · subst he
    cases hp : s.proposals h' with
    | none => rw [updateProposalStatus_of_none st e hp] at hq; exact hs _ _ hq
    | some p =>
        rw [proposals_updateProposalStatus_some st e hp] at hq
        cases hq
        exact hst
  · rw [proposals_updateProposalStatus_ne s h st e h' he] at hq
    exact hs _ _ hq

/-- The status sync of `checkProposalStatus` only writes OWNER_CONFIRMED
and EXECUTED, so it preserves `noDraftStored`. -/
theorem noDraftStored_checkProposalStatus {s : SkillState} (hash : String)
    (d : TransactionDetails) (hs : noDraftStored s) :
    noDraftStored (checkProposalStatus s hash d).2 := by
  by_cases hc : d.confirmations.length ≥ d.confirmationsRequired
  · cases hx : d.isExecuted with
    | false =>
        have he : (checkProposalStatus s hash d).2 =
            updateProposalStatus s hash ProposalStatus.ownerConfirmed none := by
          simp [checkProposalStatus, hc, hx]
        rw [he]
        exact noDraftStored_updateProposalStatus hs (by simp)
    | true =>
        have he : (checkProposalStatus s hash d).2 =
            updateProposalStatus
              (updateProposalStatus s hash ProposalStatus.ownerConfirmed none)
              hash ProposalStatus.executed d.transactionHash := by
          simp [checkProposalStatus, hc, hx]
        rw [he]
        exact noDraftStored_updateProposalStatus
          (noDraftStored_updateProposalStatus hs (by simp)) (by simp)
  · cases hx : d.isExecuted with
    | false =>
        have he : (checkProposalStatus s hash d).2 = s := by
          simp [checkProposalStatus, hc, hx]
        rw [he]
        exact hs
    | true =>
        have he : (checkProposalStatus s hash d).2 =
            updateProposalStatus s hash ProposalStatus.executed
              d.transactionHash := by
          simp [checkProposalStatus, hc, hx]
        rw [he]
        exact noDraftStored_updateProposalStatus hs (by simp)

/-- The `executeIfReady` preserves `noDraftStored`. -/
theorem noDraftStored_executeIfReady {s : SkillState} (hash : String)
    (d : TransactionDetails) (execHash : String) (hs : noDraftStored s) :
    noDraftStored (executeIfReady s hash d execHash).2.1 := by
  rcases executeIfReady_state_cases s hash d execHash with he | he <;> rw [he]
  · exact noDraftStored_checkProposalStatus hash d hs
  · exact noDraftStored_updateProposalStatus
      (noDraftStored_checkProposalStatus hash d hs) (by simp)

/-- The `agentSignTransaction` preserves `noDraftStored`. -/
theorem noDraftStored_agentSignTransaction {s : SkillState} (hash agent : String)
    (d1 d2 : TransactionDetails) (hs : noDraftStored s) :
    noDraftStored (agentSignTransaction s hash agent d1 d2).2 := by
  rcases agentSignTransaction_state_cases s hash agent d1 d2 with he | he <;> rw [he]
  · exact noDraftStored_checkProposalStatus hash d1 hs
  · exact noDraftStored_checkProposalStatus hash d2
      (noDraftStored_checkProposalStatus hash d1 hs)

/-- The `wizardStart` does not touch the proposal ledger. -/
theorem proposals_wizardStart (s : SkillState) (we : Bool) (a : String) :
    (wizardStart s we a).proposals = s.proposals := by
  unfold wizardStart
  by_cases hi : s.wizardState = WizardState.INIT <;>
    cases we <;> simp [hi, setWizardState, setAgentAddress]

/-- A successful `checkAgentFunds` does not touch the proposal ledger. -/
theorem proposals_checkAgentFunds_ok {s : SkillState} {we ok : Bool} {b m : Nat}
    {s' : SkillState} (h : checkAgentFunds s we b m = Except.ok (ok, s')) :
    s'.proposals = s.proposals := by
  cases hwe : we with
  | false => rw [hwe] at h; simp [checkAgentFunds] at h
  | true =>
      rw [hwe] at h
      simp [checkAgentFunds] at h
      obtain ⟨-, hs1⟩ := h
      rw [← hs1]
      rfl

/-- A successful `addOwnerAddress` does not touch the proposal ledger. -/
theorem proposals_addOwnerAddress_ok {cs : String → String} {s : SkillState}
    {we : Bool} {agent input c : String} {s' : SkillState}
    (h : addOwnerAddress cs s we agent input = Except.ok (c, s')) :
    s'.proposals = s.proposals := by
  cases hwe : we with
  | false => rw [hwe] at h; simp [addOwnerAddress] at h
  | true =>
      rw [hwe] at h
      cases hia : isAddress input with
      | false => simp [addOwnerAddress, hia] at h
      | true =>
          by_cases hself : strLower (cs input) = strLower agent
          · simp [addOwnerAddress, hia, hself] at h
          · simp [addOwnerAddress, hia, hself] at h
            obtain ⟨-, hs'⟩ := h
            rw [← hs']
            simp only [setWizardState, stateAddOwnerAddress]
            by_cases hmem : cs input ∈ s.ownerAddresses <;> simp [hmem]

/-- A successful `deploySafe` does not touch the proposal ledger. -/
theorem proposals_deploySafe_ok {s : SkillState} {we : Bool} {sa tx : String}
    {s' : SkillState} (h : deploySafe s we sa tx = Except.ok s') :
    s'.proposals = s.proposals := by
  cases hwe : we with
  | false => rw [hwe] at h; simp [deploySafe] at h
  | true =>
      rw [hwe] at h
      by_cases h2 : s.wizardState ≠ WizardState.READY_TO_DEPLOY_SAFE
      · simp [deploySafe, h2] at h
      · by_cases h3 : s.ownerAddresses = []
        · simp [deploySafe, h2, h3] at h
        · simp [deploySafe, h2, h3] at h
          rw [← h]
          rfl

/-- C9: every propose-family operation persists its Proposal with status
PROPOSED, and since the status-sync operations only write OWNER_CONFIRMED
and EXECUTED, no reachable local state stores a DRAFT proposal. -/
theorem proposals_created_proposed_draft_unreachable :
    (∀ (toA amountEth : String) (amountWei : Nat) (hash createdAt : String),
      (proposeSendETHProposal toA amountEth amountWei hash createdAt).status =
        ProposalStatus.proposed) ∧
    (∀ (tok toA amount symbol : String) (amountRaw : Nat) (hash createdAt : String),
      (proposeSendERC20Proposal tok toA amount symbol amountRaw hash
        createdAt).status = ProposalStatus.proposed) ∧
    (∀ (router safeAddr fromToken amount : String) (q : SwapQuoteRaw) (fee : Nat)
        (hash createdAt : String),
      (proposeSwapProposal router safeAddr fromToken amount q fee hash
        createdAt).status = ProposalStatus.proposed) ∧
    (∀ (weth amountEth : String) (amountWei : Nat) (hash createdAt : String),
      (proposeWrapETHProposal weth amountEth amountWei hash createdAt).status =
        ProposalStatus.proposed) ∧
    (∀ (weth amountWeth : String) (amountWei : Nat) (hash createdAt : String),
      (proposeUnwrapWETHProposal weth amountWeth amountWei hash createdAt).status =
        ProposalStatus.proposed) ∧
    (∀ (pool safeAddr tok amount symbol : String) (amountRaw : Nat)
        (hash createdAt : String),
      (proposeAaveDepositProposal pool safeAddr tok amount symbol amountRaw hash
        createdAt).status = ProposalStatus.proposed) ∧
    (∀ (pool safeAddr tok amountDisplay symbol : String) (amountRaw : Nat)
        (hash createdAt : String),
      (proposeAaveWithdrawProposal pool safeAddr tok amountDisplay symbol
        amountRaw hash createdAt).status = ProposalStatus.proposed) ∧
    (∀ s, Reachable s → noDraftStored s) := by
  refine ⟨fun _ _ _ _ _ => rfl, fun _ _ _ _ _ _ _ => rfl,
    fun _ _ _ _ _ _ _ _ => rfl, fun _ _ _ _ _ => rfl, fun _ _ _ _ _ => rfl,
    fun _ _ _ _ _ _ _ _ => rfl, fun _ _ _ _ _ _ _ _ => rfl, ?_⟩
  intro s hs
  induction hs with
  | refl =>
      intro h p hp
      simp [createInitialState] at hp
  | tail hR hstep ih =>
      cases hstep with
      | wizardStart we a =>
          exact noDraftStored_of_proposals_eq (proposals_wizardStart _ _ _) ih
      | checkAgentFunds =>
          rename_i h
          exact noDraftStored_of_proposals_eq (proposals_checkAgentFunds_ok h) ih
      | addOwnerAddress =>
          rename_i h
          exact noDraftStored_of_proposals_eq (proposals_addOwnerAddress_ok h) ih
      | deploySafe =>
          rename_i h
          exact noDraftStored_of_proposals_eq (proposals_deploySafe_ok h) ih
      | proposeSendETH =>
          exact noDraftStored_addProposal ih (by simp [proposeSendETHProposal])
      | proposeSendERC20 =>
          exact noDraftStored_addProposal ih (by simp [proposeSendERC20Proposal])
      | proposeSwap =>
          exact noDraftStored_addProposal ih (by simp [proposeSwapProposal])
      | proposeWrapETH =>
          exact noDraftStored_addProposal ih (by simp [proposeWrapETHProposal])
      | proposeUnwrapWETH =>
          exact noDraftStored_addProposal ih (by simp [proposeUnwrapWETHProposal])
      | proposeAaveDeposit =>
          exact noDraftStored_addProposal ih (by simp [proposeAaveDepositProposal])
      | proposeAaveWithdraw =>
          exact noDraftStored_addProposal ih
            (by simp [proposeAaveWithdrawProposal])
      | checkProposalStatus =>
          exact noDraftStored_checkProposalStatus _ _ ih
      | executeIfReady =>
          exact noDraftStored_executeIfReady _ _ _ ih
      | agentSignTransaction =>
          exact noDraftStored_agentSignTransaction _ _ _ _ ih

/-- Witness: the DRAFT-unreachability theorem applied to the state after
one concrete `proposeSendETH`. -/
theorem draft_unreachable_witness :
    noDraftStored (addProposal createInitialState
      (proposeSendETHProposal "0xabc" "1" 1000000000000000000 "0xhash1"
        "2026-01-01T00:00:00Z")) :=
  proposals_created_proposed_draft_unreachable.2.2.2.2.2.2.2
    (addProposal createInitialState
      (proposeSendETHProposal "0xabc" "1" 1000000000000000000 "0xhash1"
        "2026-01-01T00:00:00Z"))
    (Relation.ReflTransGen.single
      (Step.proposeSendETH createInitialState "0xabc" "1" 1000000000000000000
        "0xhash1" "2026-01-01T00:00:00Z"))

end AgentSafe
